import Mathlib

/-!
Orders service (`orders-service/server.js`).

A shallow embedding of the request handlers of the orders service and the
properties of its order lifecycle: creation guarded by a remote user lookup,
status updates, filtered listing, lookup and deletion over the in-memory
`orders` array.

Conventions of the embedding

* A JavaScript value is a `JVal`.  Numbers are the rational value of the parsed
  double; the only thing the handlers ask of a number is whether it is zero.
* `req.body` is the object handed over by `express.json()`, given by its list of
  properties; reading a property that is not there yields `undefined`.
* `req.query.userId` and `req.query.status` are strings when supplied
  (`Option String`), `req.params.id` is a string.
* `uuidv4()` and `new Date().toISOString()` are inputs of the handler that
  evaluates them (`uuid`, `now`).
* `axios.get` is an input of `verifyUser`: for the looked-up user id it either
  resolves with a response status or rejects with an error.
-/

namespace Orders

/-! ## JavaScript values -/

/-- JavaScript values that reach the handlers. -/
inductive JVal where
  | undefined
  | null
  | bool (b : Bool)
  | num (q : ℚ)
  | str (s : String)
  | arr (xs : List JVal)
  | obj (fields : List (String × JVal))

/-- Truthiness, as tested by `!x` and `if (x)`: `undefined`, `null`, `false`,
`0` and `""` are falsy, everything else (arrays and objects included) is truthy. -/
def truthy : JVal → Bool
  | .undefined => false
  | .null => false
  | .bool b => b
  | .num q => decide (q ≠ 0)
  | .str s => decide (s ≠ "")
  | .arr _ => true
  | .obj _ => true

/-- The test `Array.isArray(x)`. -/
def isArray : JVal → Bool
  | .arr _ => true
  | _ => false

/-- The value of `x.length` for an array `x` (only read after `Array.isArray(x)`). -/
def arrayLength : JVal → Nat
  | .arr xs => xs.length
  | _ => 0

/-- The comparison `x === s` of a value with a string: true exactly when `x` is
that same string. -/
def strictEqStr : JVal → String → Bool
  | .str t, s => t == s
  | _, _ => false

/-- Property read `body.k` on the request body (destructuring): the value of the
property, `undefined` when the body has no such property. -/
def getProp (body : List (String × JVal)) (k : String) : JVal :=
  match body.lookup k with
  | some v => v
  | none => .undefined

/-! ## The remote user lookup -/

/-- Outcome of `await axios.get(url)` inside the `try` block of `verifyUser`: the
promise resolves with a response of some status, or control passes to the `catch`
block (network error, timeout, refused status, or an exception raised while the
URL is built), recorded as `rejected`. -/
inductive AxiosResult where
  | resolved (status : Nat)
  | rejected (message : String)

/-- `verifyUser(userId)`: `response.status === 200` when the request resolves,
`false` from the `catch` block when it rejects.  `remote` gives the outcome of
the GET on the users-service URL built from `userId`. -/
def verifyUser (remote : JVal → AxiosResult) (userId : JVal) : Bool :=
  match remote userId with
  | .resolved status => status == 200
  | .rejected _ => false

/-! ## Orders, responses, the store -/

/-- An order record as built by `POST /orders`; `updatedAt` is absent until the
first status change. -/
structure Order where
  id : String
  userId : JVal
  items : JVal
  total : JVal
  status : JVal
  createdAt : String
  updatedAt : Option String

/-- Body of a response: `{ error: msg }`, one order, an array of orders, or no
body (`send()`). -/
inductive ResBody where
  | error (msg : String)
  | order (o : Order)
  | orders (l : List Order)
  | empty

/-- An HTTP response: status code and body. -/
structure Response where
  status : Nat
  body : ResBody

/-- The array literal `validStatuses` of the PATCH handler. -/
def validStatuses : List String :=
  ["pending", "processing", "shipped", "delivered", "cancelled"]

/-- `orders.findIndex(o => p o)`: index of the first order satisfying `p`,
`none` standing for `-1`. -/
def findIndex (p : Order → Bool) : List Order → Option Nat
  | [] => none
  | o :: rest => if p o then some 0 else (findIndex p rest).map (· + 1)

/-! ## Handlers -/

/-- `GET /orders`: each filter is applied only when its query value is truthy. -/
def getOrders (orders : List Order) (qUserId qStatus : Option String) : Response :=
  let filteredOrders := orders
  let filteredOrders :=
    match qUserId with
    | some u =>
      if truthy (.str u) then filteredOrders.filter (fun order => strictEqStr order.userId u)
      else filteredOrders
    | none => filteredOrders
  let filteredOrders :=
    match qStatus with
    | some s =>
      if truthy (.str s) then filteredOrders.filter (fun order => strictEqStr order.status s)
      else filteredOrders
    | none => filteredOrders
  ⟨200, .orders filteredOrders⟩

/-- `GET /orders/:id`. -/
def getOrderById (orders : List Order) (id : String) : Response :=
  match orders.find? (fun o => o.id == id) with
  | none => ⟨404, .error "Pedido no encontrado"⟩
  | some order => ⟨200, .order order⟩

/-- Outcome of `POST /orders`: the response, the `orders` array afterwards, and
the arguments with which `verifyUser` was called during the call. -/
structure PostResult where
  res : Response
  orders : List Order
  queried : List JVal

/-- `POST /orders`. -/
def postOrders (remote : JVal → AxiosResult) (uuid now : String)
    (orders : List Order) (body : List (String × JVal)) : PostResult :=
  let userId := getProp body "userId"
  let items := getProp body "items"
  let total := getProp body "total"
  if !truthy userId || !truthy items || !truthy total then
    ⟨⟨400, .error "userId, items y total son requeridos"⟩, orders, []⟩
  else if !isArray items || arrayLength items == 0 then
    ⟨⟨400, .error "items debe ser un array no vacío"⟩, orders, []⟩
  else if !verifyUser remote userId then
    ⟨⟨400, .error "El usuario no existe"⟩, orders, [userId]⟩
  else
    let order : Order :=
      { id := uuid, userId := userId, items := items, total := total,
        status := .str "pending", createdAt := now, updatedAt := none }
    ⟨⟨201, .order order⟩, orders ++ [order], [userId]⟩

/-- `PATCH /orders/:id/status`.  The branch for an index outside the array is the
`TypeError` the assignment would raise; `findIndex` never produces such an index. -/
def patchOrderStatus (now : String) (orders : List Order) (id : String)
    (body : List (String × JVal)) : Response × List Order :=
  match findIndex (fun o => o.id == id) orders with
  | none => (⟨404, .error "Pedido no encontrado"⟩, orders)
  | some orderIndex =>
    let status := getProp body "status"
    if !validStatuses.any (fun v => strictEqStr status v) then
      (⟨400, .error "Estado inválido"⟩, orders)
    else
      match orders[orderIndex]? with
      | none => (⟨500, .error "TypeError"⟩, orders)
      | some o =>
        let o' : Order := { o with status := status, updatedAt := some now }
        (⟨200, .order o'⟩, orders.set orderIndex o')

/-- `DELETE /orders/:id`: `splice(orderIndex, 1)` on the first matching index. -/
def deleteOrder (orders : List Order) (id : String) : Response × List Order :=
  match findIndex (fun o => o.id == id) orders with
  | none => (⟨404, .error "Pedido no encontrado"⟩, orders)
  | some orderIndex => (⟨204, .empty⟩, orders.eraseIdx orderIndex)

/-! ## Reachable stores -/

/-- Stores reachable from the empty `orders` array by the mutating handlers,
whether the call succeeds or is rejected; on each `POST` the generated id is not
already in the store. -/
inductive Reachable : List Order → Prop
  | init : Reachable []
  | post (remote : JVal → AxiosResult) (uuid now : String) (orders : List Order)
      (body : List (String × JVal)) :
      Reachable orders → (∀ o ∈ orders, o.id ≠ uuid) →
      Reachable (postOrders remote uuid now orders body).orders
  | patch (now : String) (orders : List Order) (id : String) (body : List (String × JVal)) :
      Reachable orders → Reachable (patchOrderStatus now orders id body).2
  | delete (orders : List Order) (id : String) :
      Reachable orders → Reachable (deleteOrder orders id).2

/-! ## Sample data -/

/-- The line item of the documented example. -/
def laptop : JVal :=
  .obj [("name", .str "Laptop"), ("quantity", .num 1), ("price", .num 999)]

/-- A stored order of user `u1`. -/
def order1 : Order :=
  { id := "a", userId := .str "u1", items := .arr [laptop], total := .num 999,
    status := .str "delivered", createdAt := "t0", updatedAt := none }

/-- A stored order of user `u2`. -/
def order2 : Order :=
  { id := "b", userId := .str "u2", items := .arr [laptop], total := .num 5,
    status := .str "pending", createdAt := "t1", updatedAt := none }

/-- A users service that knows every user. -/
def remoteOk : JVal → AxiosResult := fun _ => .resolved 200

/-- A users service that answers 404 (axios rejects). -/
def remoteDown : JVal → AxiosResult := fun _ => .rejected "Request failed with status code 404"

/-- A request body with a zero total. -/
def bodyZeroTotal : List (String × JVal) :=
  [("userId", .str "u1"), ("items", .arr [laptop]), ("total", .num 0)]

/-- A request body whose only item has a name but neither quantity nor price. -/
def bodyBareItem : List (String × JVal) :=
  [("userId", .str "u1"), ("items", .arr [.obj [("name", .str "Laptop")]]), ("total", .num 5)]

/-- The documented example request. -/
def bodyLaptop : List (String × JVal) :=
  [("userId", .str "u1"), ("items", .arr [laptop]), ("total", .num 999)]

/-- The order created from `bodyBareItem` with id `c` at time `t2`. -/
def orderBareItem : Order :=
  { id := "c", userId := .str "u1", items := .arr [.obj [("name", .str "Laptop")]],
    total := .num 5, status := .str "pending", createdAt := "t2", updatedAt := none }

/-! ## The listing as the specification words it -/

/-- Specification of the filter: an order is listed when its `userId` equals the
supplied `userId` (if one is supplied) and its `status` equals the supplied
`status` (if one is supplied). -/
def matchesFilter (qUserId qStatus : Option String) : Order → Bool := fun o =>
  (match qUserId with
    | none => true
    | some u => strictEqStr o.userId u) &&
  (match qStatus with
    | none => true
    | some s => strictEqStr o.status s)

/-- Specification of `getAll`: the stored orders matching the filter, in
insertion order. -/
def getAllSpec (orders : List Order) (qUserId qStatus : Option String) : List Order :=
  orders.filter (matchesFilter qUserId qStatus)

/-- The criterion a query value stands for in the handler: an empty string counts
as no criterion. -/
def effective : Option String → Option String
  | some s => if s = "" then none else some s
  | none => none

/-! ## Evaluation lemmas for the value tests -/

@[simp] theorem truthy_undefined : truthy .undefined = false := rfl

@[simp] theorem truthy_null : truthy .null = false := rfl

@[simp] theorem truthy_bool (b : Bool) : truthy (.bool b) = b := rfl

@[simp] theorem truthy_num (q : ℚ) : truthy (.num q) = decide (q ≠ 0) := rfl

@[simp] theorem truthy_str (s : String) : truthy (.str s) = decide (s ≠ "") := rfl

@[simp] theorem truthy_arr (xs : List JVal) : truthy (.arr xs) = true := rfl

@[simp] theorem truthy_obj (fs : List (String × JVal)) : truthy (.obj fs) = true := rfl

@[simp] theorem isArray_arr (xs : List JVal) : isArray (.arr xs) = true := rfl

@[simp] theorem arrayLength_arr (xs : List JVal) : arrayLength (.arr xs) = xs.length := rfl

@[simp] theorem strictEqStr_str (t s : String) : strictEqStr (.str t) s = (t == s) := rfl

theorem strictEqStr_iff (v : JVal) (s : String) : strictEqStr v s = true ↔ v = .str s := by
  cases v <;> simp [strictEqStr]

/-! ## Lemmas on `findIndex` and the list operations -/

theorem findIndex_eq_none {p : Order → Bool} {l : List Order} :
    findIndex p l = none ↔ ∀ o ∈ l, p o = false := by
  induction l with
  | nil => simp [findIndex]
  | cons a t ih => by_cases h : p a <;> simp [findIndex, h, ih]

theorem findIndex_eq_some {p : Order → Bool} {l : List Order} {i : Nat}
    (h : findIndex p l = some i) :
    ∃ l1 o l2, l = l1 ++ o :: l2 ∧ l1.length = i ∧ p o = true ∧ ∀ x ∈ l1, p x = false := by
  induction l generalizing i with
  | nil => simp [findIndex] at h
  | cons a t ih =>
    by_cases ha : p a
    · simp [findIndex, ha] at h
      subst h
      exact ⟨[], a, t, rfl, rfl, ha, by simp⟩
    · simp [findIndex, ha] at h
      obtain ⟨j, hj, rfl⟩ := h
      obtain ⟨l1, o, l2, rfl, hl, hp, hall⟩ := ih hj
      exact ⟨a :: l1, o, l2, rfl, by simp [hl], hp, by simpa [ha] using hall⟩

theorem findIndex_append {p : Order → Bool} (l1 : List Order) (o : Order) (l2 : List Order)
    (hall : ∀ x ∈ l1, p x = false) (hp : p o = true) :
    findIndex p (l1 ++ o :: l2) = some l1.length := by
  induction l1 with
  | nil => simp [findIndex, hp]
  | cons a t ih =>
    have ha : p a = false := hall a (by simp)
    have ht : ∀ x ∈ t, p x = false := fun x hx => hall x (by simp [hx])
    simp [findIndex, ha, ih ht]

/-- An order with the wanted id is stored: the store splits at the first one. -/
theorem split_at_first {id : String} {orders : List Order} (h : ∃ o ∈ orders, o.id = id) :
    ∃ l1 o l2, orders = l1 ++ o :: l2 ∧ o.id = id ∧ ∀ x ∈ l1, x.id ≠ id := by
  cases hf : findIndex (fun o => o.id == id) orders with
  | none =>
    obtain ⟨o, ho, hid⟩ := h
    have := (findIndex_eq_none.mp hf) o ho
    simp [hid] at this
  | some i =>
    obtain ⟨l1, o, l2, rfl, _, hp, hall⟩ := findIndex_eq_some hf
    refine ⟨l1, o, l2, rfl, by simpa using hp, fun x hx => ?_⟩
    simpa using hall x hx

theorem findIndex_split (id : String) (l1 : List Order) (o : Order) (l2 : List Order)
    (hid : o.id = id) (hall : ∀ x ∈ l1, x.id ≠ id) :
    findIndex (fun o => o.id == id) (l1 ++ o :: l2) = some l1.length :=
  findIndex_append l1 o l2 (fun x hx => by simpa using hall x hx) (by simpa using hid)

theorem getElem?_split (l1 : List Order) (o : Order) (l2 : List Order) :
    (l1 ++ o :: l2)[l1.length]? = some o := by
  induction l1 with
  | nil => simp
  | cons a t ih => simpa using ih

theorem set_split (l1 : List Order) (o o' : Order) (l2 : List Order) :
    (l1 ++ o :: l2).set l1.length o' = l1 ++ o' :: l2 := by
  induction l1 with
  | nil => rfl
  | cons a t ih => simp

theorem eraseIdx_split (l1 : List Order) (o : Order) (l2 : List Order) :
    (l1 ++ o :: l2).eraseIdx l1.length = l1 ++ l2 := by
  induction l1 with
  | nil => rfl
  | cons a t ih => simpa using ih

theorem validStatuses_any (v : JVal) :
    validStatuses.any (fun s => strictEqStr v s) = true ↔ ∃ s ∈ validStatuses, v = .str s := by
  constructor
  · intro h
    obtain ⟨s, hs, hv⟩ := List.any_eq_true.mp h
    refine ⟨s, hs, ?_⟩
    cases v <;> simp [strictEqStr] at hv
    rw [hv]
  · rintro ⟨s, hs, rfl⟩
    exact List.any_eq_true.mpr ⟨s, hs, by simp [strictEqStr]⟩

/-- The PATCH handler on a store split at the first order with the wanted id, for
an enumerated status. -/
theorem patch_split (now id : String) (body : List (String × JVal)) (l1 : List Order)
    (o : Order) (l2 : List Order) (hid : o.id = id) (hall : ∀ x ∈ l1, x.id ≠ id)
    (hs : ∃ s ∈ validStatuses, getProp body "status" = .str s) :
    patchOrderStatus now (l1 ++ o :: l2) id body =
      (⟨200, .order { o with status := getProp body "status", updatedAt := some now }⟩,
        l1 ++ { o with status := getProp body "status", updatedAt := some now } :: l2) := by
  have hv := (validStatuses_any (getProp body "status")).mpr hs
  simp only [patchOrderStatus, findIndex_split id l1 o l2 hid hall, hv, getElem?_split,
    set_split]
  rfl

/-- The PATCH handler when the status is not an enumerated one. -/
theorem patch_invalid (now id : String) (body : List (String × JVal)) (orders : List Order)
    (hs : ¬ ∃ s ∈ validStatuses, getProp body "status" = .str s) :
    (patchOrderStatus now orders id body).2 = orders ∧
      (patchOrderStatus now orders id body).1.status ≠ 200 := by
  have hv : validStatuses.any (fun s => strictEqStr (getProp body "status") s) = false := by
    rw [← Bool.not_eq_true, validStatuses_any]
    exact hs
  unfold patchOrderStatus
  cases findIndex (fun o => o.id == id) orders <;> simp [hv]

/-! ## Status updates -/

/-- C3: when an order with id `id` is stored, whatever its current status, a
status update to any of the five enumerated values succeeds: the response is 200
with the first order of that id, its status set to the requested value and
`updatedAt` set to the current timestamp (and that record replaces the old one in
the store).  No transition is rejected. -/
theorem updateStatus_any_enumerated (now id s : String) (body : List (String × JVal))
    (orders : List Order) (hmem : ∃ o ∈ orders, o.id = id) (hs : s ∈ validStatuses)
    (hb : getProp body "status" = .str s) :
    ∃ l1 o l2, orders = l1 ++ o :: l2 ∧ o.id = id ∧ (∀ x ∈ l1, x.id ≠ id) ∧
      patchOrderStatus now orders id body =
        (⟨200, .order { o with status := .str s, updatedAt := some now }⟩,
          l1 ++ { o with status := .str s, updatedAt := some now } :: l2) := by
  obtain ⟨l1, o, l2, rfl, hid, hall⟩ := split_at_first hmem
  refine ⟨l1, o, l2, rfl, hid, hall, ?_⟩
  rw [patch_split now id body l1 o l2 hid hall ⟨s, hs, hb⟩, hb]

/-- Witness of C3: a delivered order is set back to pending. -/
theorem updateStatus_any_enumerated_witness :
    ∃ l1 o l2, [order2, order1] = l1 ++ o :: l2 ∧ o.id = "a" ∧ (∀ x ∈ l1, x.id ≠ "a") ∧
      patchOrderStatus "t5" [order2, order1] "a" [("status", .str "pending")] =
        (⟨200, .order { o with status := .str "pending", updatedAt := some "t5" }⟩,
          l1 ++ { o with status := .str "pending", updatedAt := some "t5" } :: l2) :=
  updateStatus_any_enumerated "t5" "a" "pending" [("status", .str "pending")] [order2, order1]
    ⟨order1, by simp, rfl⟩ (by simp [validStatuses]) (by simp [getProp, List.lookup])

/-- C4: when an order with id `id` is stored and the requested status is not
exactly one of the five enumerated strings (any other string, a differently cased
one, a non-string value, or no status at all, which reads as `undefined`), the
update is rejected with 400 "Estado inválido" and the store is left as it was. -/
theorem updateStatus_invalid_status (now id : String) (body : List (String × JVal))
    (orders : List Order) (hmem : ∃ o ∈ orders, o.id = id)
    (hs : ∀ s ∈ validStatuses, getProp body "status" ≠ .str s) :
    patchOrderStatus now orders id body = (⟨400, .error "Estado inválido"⟩, orders) := by
  obtain ⟨l1, o, l2, rfl, hid, hall⟩ := split_at_first hmem
  have hv : validStatuses.any (fun s => strictEqStr (getProp body "status") s) = false := by
    rw [← Bool.not_eq_true, validStatuses_any]
    rintro ⟨s, hs1, hs2⟩
    exact hs s hs1 hs2
  simp [patchOrderStatus, findIndex_split id l1 o l2 hid hall, hv]

/-- Witness of C4: a capitalised status and a missing status are both rejected. -/
theorem updateStatus_invalid_status_witness :
    patchOrderStatus "t5" [order2, order1] "a" [("status", .str "Shipped")] =
        (⟨400, .error "Estado inválido"⟩, [order2, order1]) ∧
      patchOrderStatus "t5" [order2, order1] "a" [] =
        (⟨400, .error "Estado inválido"⟩, [order2, order1]) :=
  ⟨updateStatus_invalid_status "t5" "a" [("status", .str "Shipped")] [order2, order1]
      ⟨order1, by simp, rfl⟩ (by simp [validStatuses, getProp, List.lookup]),
    updateStatus_invalid_status "t5" "a" [] [order2, order1]
      ⟨order1, by simp, rfl⟩ (by simp [getProp, List.lookup])⟩

/-- C10: a successful status update (response 200) keeps the length of the store
and every record except the first one with the given id, which stays at its
position; in that record `id`, `userId`, `items`, `total` and `createdAt` are as
before, so that only `status` and `updatedAt` can differ; the response carries
the updated record. -/
theorem updateStatus_frame (now id : String) (body : List (String × JVal))
    (orders : List Order) (hok : (patchOrderStatus now orders id body).1.status = 200) :
    (patchOrderStatus now orders id body).2.length = orders.length ∧
      ∃ l1 o l2 o', orders = l1 ++ o :: l2 ∧ (∀ x ∈ l1, x.id ≠ id) ∧ o.id = id ∧
        (patchOrderStatus now orders id body).2 = l1 ++ o' :: l2 ∧
        (patchOrderStatus now orders id body).1.body = .order o' ∧
        o'.id = o.id ∧ o'.userId = o.userId ∧ o'.items = o.items ∧ o'.total = o.total ∧
        o'.createdAt = o.createdAt := by
  by_cases hs : ∃ s ∈ validStatuses, getProp body "status" = .str s
  · cases hf : findIndex (fun o => o.id == id) orders with
    | none => simp [patchOrderStatus, hf] at hok
    | some i =>
      obtain ⟨l1, o, l2, rfl, _, hp, hall⟩ := findIndex_eq_some hf
      have hid : o.id = id := by simpa using hp
      have hall' : ∀ x ∈ l1, x.id ≠ id := fun x hx => by simpa using hall x hx
      rw [patch_split now id body l1 o l2 hid hall' hs]
      exact ⟨by simp, l1, o, l2, _, rfl, hall', hid, rfl, rfl, rfl, rfl, rfl, rfl, rfl⟩
  · exact absurd hok (patch_invalid now id body orders hs).2

/-- Witness of C10: a successful update of the order with id `a`. -/
theorem updateStatus_frame_witness :
    (patchOrderStatus "t5" [order2, order1] "a" [("status", .str "shipped")]).2.length =
        [order2, order1].length ∧
      ∃ l1 o l2 o', [order2, order1] = l1 ++ o :: l2 ∧ (∀ x ∈ l1, x.id ≠ "a") ∧ o.id = "a" ∧
        (patchOrderStatus "t5" [order2, order1] "a" [("status", .str "shipped")]).2 =
          l1 ++ o' :: l2 ∧
        (patchOrderStatus "t5" [order2, order1] "a" [("status", .str "shipped")]).1.body =
          .order o' ∧
        o'.id = o.id ∧ o'.userId = o.userId ∧ o'.items = o.items ∧ o'.total = o.total ∧
        o'.createdAt = o.createdAt :=
  updateStatus_frame "t5" "a" [("status", .str "shipped")] [order2, order1]
    (by simp [patchOrderStatus, findIndex, order1, order2, getProp, List.lookup, validStatuses,
      strictEqStr])

/-! ## Creation -/

/-- The POST handler on a structurally accepted body of a verified user. -/
theorem postOrders_created (remote : JVal → AxiosResult) (uuid now : String)
    (orders : List Order) (body : List (String × JVal)) (x : JVal) (xs : List JVal)
    (hu : truthy (getProp body "userId") = true) (hi : getProp body "items" = .arr (x :: xs))
    (ht : truthy (getProp body "total") = true)
    (hv : verifyUser remote (getProp body "userId") = true) :
    postOrders remote uuid now orders body =
      ⟨⟨201, .order {
            id := uuid, userId := getProp body "userId", items := .arr (x :: xs),
            total := getProp body "total", status := .str "pending", createdAt := now,
            updatedAt := none }⟩,
        orders ++ [{
            id := uuid, userId := getProp body "userId", items := .arr (x :: xs),
            total := getProp body "total", status := .str "pending", createdAt := now,
            updatedAt := none }],
        [getProp body "userId"]⟩ := by
  simp [postOrders, hu, hi, ht, hv]

/-- The store after a POST: unchanged, or extended at the end by one pending order
with the generated id and a non-empty items array. -/
theorem postOrders_orders_cases (remote : JVal → AxiosResult) (uuid now : String)
    (orders : List Order) (body : List (String × JVal)) :
    (postOrders remote uuid now orders body).orders = orders ∨
      ∃ o, (postOrders remote uuid now orders body).orders = orders ++ [o] ∧ o.id = uuid ∧
        o.status = .str "pending" ∧ ∃ x xs, o.items = .arr (x :: xs) := by
  simp only [postOrders]
  split
  · exact Or.inl rfl
  · split
    · exact Or.inl rfl
    · rename_i h
      split
      · exact Or.inl rfl
      · refine Or.inr ⟨_, rfl, rfl, rfl, ?_⟩
        cases hitems : getProp body "items" with
        | arr l =>
          cases l with
          | nil => simp [hitems] at h
          | cons x xs => exact ⟨x, xs, rfl⟩
        | _ => simp [hitems, isArray] at h

/-- The existence check answers `true` exactly when the lookup resolved with
status 200: every other status and every rejection is mapped to `false`. -/
theorem verifyUser_eq_true_iff (remote : JVal → AxiosResult) (userId : JVal) :
    verifyUser remote userId = true ↔ remote userId = .resolved 200 := by
  unfold verifyUser
  cases h : remote userId <;> simp

/-- C1: for every store and every creation input that reaches the user existence
check (truthy `userId` and `total`, `items` a non-empty array), when the remote
lookup resolves with a status other than 200 or is rejected with any error,
`verifyUser` answers `false`, the response is 400 "El usuario no existe", and the
store after the call is the store before it. -/
theorem create_unverified_user (remote : JVal → AxiosResult) (uuid now : String)
    (orders : List Order) (body : List (String × JVal)) (x : JVal) (xs : List JVal)
    (hu : truthy (getProp body "userId") = true) (hi : getProp body "items" = .arr (x :: xs))
    (ht : truthy (getProp body "total") = true)
    (hr : (∃ status, remote (getProp body "userId") = .resolved status ∧ status ≠ 200) ∨
      ∃ message, remote (getProp body "userId") = .rejected message) :
    verifyUser remote (getProp body "userId") = false ∧
      (postOrders remote uuid now orders body).res = ⟨400, .error "El usuario no existe"⟩ ∧
      (postOrders remote uuid now orders body).orders = orders := by
  have hv : verifyUser remote (getProp body "userId") = false := by
    rcases hr with ⟨status, h, hne⟩ | ⟨message, h⟩
    · simp [verifyUser, h, hne]
    · simp [verifyUser, h]
  refine ⟨hv, ?_⟩
  simp [postOrders, hu, hi, ht, hv]

/-- Witness of C1: for a well-formed request, a users service whose lookup is
rejected, and one that answers with status 500. -/
theorem create_unverified_user_witness :
    (verifyUser remoteDown (getProp bodyLaptop "userId") = false ∧
      (postOrders remoteDown "c" "t2" [order1] bodyLaptop).res =
        ⟨400, .error "El usuario no existe"⟩ ∧
      (postOrders remoteDown "c" "t2" [order1] bodyLaptop).orders = [order1]) ∧
    (verifyUser (fun _ => .resolved 500) (getProp bodyLaptop "userId") = false ∧
      (postOrders (fun _ => .resolved 500) "c" "t2" [order1] bodyLaptop).res =
        ⟨400, .error "El usuario no existe"⟩ ∧
      (postOrders (fun _ => .resolved 500) "c" "t2" [order1] bodyLaptop).orders = [order1]) :=
  ⟨create_unverified_user remoteDown "c" "t2" [order1] bodyLaptop laptop []
      (by simp [bodyLaptop, getProp, List.lookup]) (by simp [bodyLaptop, getProp, List.lookup])
      (by simp [bodyLaptop, getProp, List.lookup])
      (Or.inr ⟨"Request failed with status code 404", rfl⟩),
    create_unverified_user (fun _ => .resolved 500) "c" "t2" [order1] bodyLaptop laptop []
      (by simp [bodyLaptop, getProp, List.lookup]) (by simp [bodyLaptop, getProp, List.lookup])
      (by simp [bodyLaptop, getProp, List.lookup])
      (Or.inl ⟨500, rfl, by decide⟩)⟩

/-- C2 (evaluation at the failing input): a request of a verified user with a
non-empty `userId`, a non-empty items array and the number 0 as `total` is
rejected with 400 "userId, items y total son requeridos"; no order is created and
the user lookup is not even issued. -/
theorem create_zero_total_rejected :
    (postOrders remoteOk "c" "t2" [order1] bodyZeroTotal).res =
        ⟨400, .error "userId, items y total son requeridos"⟩ ∧
      (postOrders remoteOk "c" "t2" [order1] bodyZeroTotal).orders = [order1] ∧
      (postOrders remoteOk "c" "t2" [order1] bodyZeroTotal).queried = [] ∧
      getProp bodyZeroTotal "total" = .num 0 ∧
      verifyUser remoteOk (getProp bodyZeroTotal "userId") = true := by
  simp [postOrders, bodyZeroTotal, getProp, List.lookup, truthy, verifyUser, remoteOk]

/-- C7: when `userId` is the empty string or absent, or `items` is absent, not an
array, or an empty array, or `total` is absent, the request is rejected with 400
and one of the two validation messages, no user lookup is issued, and the store
is unchanged. -/
theorem create_validation_error (remote : JVal → AxiosResult) (uuid now : String)
    (orders : List Order) (body : List (String × JVal))
    (h : getProp body "userId" = .str "" ∨ getProp body "userId" = .undefined ∨
      getProp body "items" = .undefined ∨ isArray (getProp body "items") = false ∨
      getProp body "items" = .arr [] ∨ getProp body "total" = .undefined) :
    ((postOrders remote uuid now orders body).res =
          ⟨400, .error "userId, items y total son requeridos"⟩ ∨
        (postOrders remote uuid now orders body).res =
          ⟨400, .error "items debe ser un array no vacío"⟩) ∧
      (postOrders remote uuid now orders body).queried = [] ∧
      (postOrders remote uuid now orders body).orders = orders := by
  simp only [postOrders]
  split
  · exact ⟨Or.inl rfl, rfl, rfl⟩
  · rename_i h1
    split
    · exact ⟨Or.inr rfl, rfl, rfl⟩
    · rename_i h2
      exfalso
      rcases h with h | h | h | h | h | h <;>
        simp [h] at h1 h2

/-- Witness of C7: an empty items array, and a body without `userId`. -/
theorem create_validation_error_witness :
    (((postOrders remoteOk "c" "t2" [order1]
            [("userId", .str "u1"), ("items", .arr []), ("total", .num 5)]).res =
          ⟨400, .error "userId, items y total son requeridos"⟩ ∨
        (postOrders remoteOk "c" "t2" [order1]
            [("userId", .str "u1"), ("items", .arr []), ("total", .num 5)]).res =
          ⟨400, .error "items debe ser un array no vacío"⟩) ∧
      (postOrders remoteOk "c" "t2" [order1]
          [("userId", .str "u1"), ("items", .arr []), ("total", .num 5)]).queried = [] ∧
      (postOrders remoteOk "c" "t2" [order1]
          [("userId", .str "u1"), ("items", .arr []), ("total", .num 5)]).orders = [order1]) :=
  create_validation_error remoteOk "c" "t2" [order1]
    [("userId", .str "u1"), ("items", .arr []), ("total", .num 5)]
    (Or.inr (Or.inr (Or.inr (Or.inr (Or.inl (by simp [getProp, List.lookup]))))))

/-- C8 (counterexample): a request of a verified user whose only item has a name
but neither `quantity` nor `price` is accepted with 201, and the order is added
to the store. -/
theorem create_accepts_bare_item :
    getProp [("name", JVal.str "Laptop")] "quantity" = .undefined ∧
      getProp [("name", JVal.str "Laptop")] "price" = .undefined ∧
      postOrders remoteOk "c" "t2" [order1] bodyBareItem =
        ⟨⟨201, .order orderBareItem⟩, [order1, orderBareItem], [.str "u1"]⟩ := by
  simp [postOrders, bodyBareItem, orderBareItem, getProp, List.lookup, truthy, isArray,
    arrayLength, verifyUser, remoteOk]

/-- C8 (amended): the fields of the individual items are not inspected.  When
`userId` and `total` are truthy, `items` is a non-empty array (of any values) and
the user is verified, the request succeeds with 201 and the pending order, made of
the generated id, the caller's `userId`, `items` and `total` as supplied and the
creation timestamp, is appended to the store. -/
theorem create_ignores_item_fields (remote : JVal → AxiosResult) (uuid now : String)
    (orders : List Order) (body : List (String × JVal)) (x : JVal) (xs : List JVal)
    (hu : truthy (getProp body "userId") = true) (hi : getProp body "items" = .arr (x :: xs))
    (ht : truthy (getProp body "total") = true)
    (hv : verifyUser remote (getProp body "userId") = true) :
    (postOrders remote uuid now orders body).res.status = 201 ∧
      (postOrders remote uuid now orders body).orders =
        orders ++ [{
            id := uuid, userId := getProp body "userId", items := .arr (x :: xs),
            total := getProp body "total", status := .str "pending", createdAt := now,
            updatedAt := none }] := by
  rw [postOrders_created remote uuid now orders body x xs hu hi ht hv]
  exact ⟨rfl, rfl⟩

/-- Witness of C8 (amended): an item that is an empty object. -/
theorem create_ignores_item_fields_witness :
    (postOrders remoteOk "d" "t3" []
          [("userId", .str "u1"), ("items", .arr [.obj []]), ("total", .num 5)]).res.status =
        201 ∧
      (postOrders remoteOk "d" "t3" []
          [("userId", .str "u1"), ("items", .arr [.obj []]), ("total", .num 5)]).orders =
        [] ++ [{
            id := "d",
            userId := getProp [("userId", .str "u1"), ("items", .arr [.obj []]),
              ("total", .num 5)] "userId",
            items := .arr (.obj [] :: []),
            total := getProp [("userId", .str "u1"), ("items", .arr [.obj []]),
              ("total", .num 5)] "total",
            status := .str "pending", createdAt := "t3", updatedAt := none }] :=
  create_ignores_item_fields remoteOk "d" "t3" []
    [("userId", .str "u1"), ("items", .arr [.obj []]), ("total", .num 5)] (.obj []) []
    (by simp [getProp, List.lookup, truthy]) (by simp [getProp, List.lookup])
    (by simp [getProp, List.lookup, truthy]) (by simp [verifyUser, remoteOk])

/-! ## Listing -/

theorem matchesFilter_none_none : matchesFilter none none = fun _ => true := by
  funext o
  simp [matchesFilter]

theorem matchesFilter_none_some (s : String) :
    matchesFilter none (some s) = fun o => strictEqStr o.status s := by
  funext o
  simp [matchesFilter]

theorem matchesFilter_some_none (u : String) :
    matchesFilter (some u) none = fun o => strictEqStr o.userId u := by
  funext o
  simp [matchesFilter]

theorem matchesFilter_some_some (u s : String) :
    matchesFilter (some u) (some s) =
      fun o => strictEqStr o.userId u && strictEqStr o.status s := by
  funext o
  simp [matchesFilter]

/-- An order matches the specified filter exactly when it carries each supplied
value. -/
theorem matchesFilter_iff (qUserId qStatus : Option String) (o : Order) :
    matchesFilter qUserId qStatus o = true ↔
      (∀ u, qUserId = some u → o.userId = .str u) ∧
        (∀ s, qStatus = some s → o.status = .str s) := by
  cases qUserId <;> cases qStatus <;> simp [matchesFilter, strictEqStr_iff]

/-- C5 (counterexample): with the empty string supplied as `userId`, the listing
returns the stored order of user `u1`, although no stored order has the empty
string as `userId`; the listing the claim describes is empty. -/
theorem getOrders_empty_userId_lists_all :
    getOrders [order1] (some "") none = ⟨200, .orders [order1]⟩ ∧
      getAllSpec [order1] (some "") none = [] ∧
      getOrders [order1] (some "") none ≠
        ⟨200, .orders (getAllSpec [order1] (some "") none)⟩ := by
  refine ⟨by simp [getOrders], by simp [getAllSpec, matchesFilter, order1], ?_⟩
  simp [getOrders, getAllSpec, matchesFilter, order1]

/-- C5 (amended): the listing answers 200 with exactly the stored orders that
satisfy every criterion supplied as a non-empty string (`userId` equal to the
supplied one, `status` equal to the supplied one, both when both are supplied), in
insertion order; a criterion that is absent or supplied as the empty string does
not restrict the listing, and with no criterion all records are returned. -/
theorem getOrders_eq_spec_effective (orders : List Order) (qUserId qStatus : Option String) :
    getOrders orders qUserId qStatus =
      ⟨200, .orders (getAllSpec orders (effective qUserId) (effective qStatus))⟩ := by
  cases qUserId with
  | none =>
    cases qStatus with
    | none => simp [getOrders, getAllSpec, effective, matchesFilter_none_none]
    | some s =>
      by_cases hs : s = "" <;>
        simp [getOrders, getAllSpec, effective, hs, matchesFilter_none_none,
          matchesFilter_none_some]
  | some u =>
    cases qStatus with
    | none =>
      by_cases hu : u = "" <;>
        simp [getOrders, getAllSpec, effective, hu, matchesFilter_none_none,
          matchesFilter_some_none]
    | some s =>
      by_cases hu : u = "" <;> by_cases hs : s = "" <;>
        simp [getOrders, getAllSpec, effective, hu, hs, List.filter_filter, Bool.and_comm,
          matchesFilter_none_none, matchesFilter_none_some, matchesFilter_some_none,
          matchesFilter_some_some]

/-! ## Invariant of reachable stores, deletion -/

theorem patch_cases (now id : String) (body : List (String × JVal)) (orders : List Order) :
    (patchOrderStatus now orders id body).2 = orders ∨
      ∃ l1 o l2 o', orders = l1 ++ o :: l2 ∧
        (patchOrderStatus now orders id body).2 = l1 ++ o' :: l2 ∧ o'.id = o.id ∧
        o'.items = o.items ∧ ∃ s ∈ validStatuses, o'.status = .str s := by
  by_cases hs : ∃ s ∈ validStatuses, getProp body "status" = .str s
  · cases hf : findIndex (fun o => o.id == id) orders with
    | none => exact Or.inl (by simp [patchOrderStatus, hf])
    | some i =>
      obtain ⟨l1, o, l2, rfl, _, hp, hall⟩ := findIndex_eq_some hf
      have hid : o.id = id := by simpa using hp
      have hall' : ∀ x ∈ l1, x.id ≠ id := fun x hx => by simpa using hall x hx
      rw [patch_split now id body l1 o l2 hid hall' hs]
      exact Or.inr ⟨l1, o, l2, _, rfl, rfl, rfl, rfl, hs⟩
  · exact Or.inl (patch_invalid now id body orders hs).1

theorem delete_absent (id : String) (orders : List Order) (h : ∀ o ∈ orders, o.id ≠ id) :
    deleteOrder orders id = (⟨404, .error "Pedido no encontrado"⟩, orders) := by
  have hf : findIndex (fun o => o.id == id) orders = none :=
    findIndex_eq_none.mpr (fun o ho => by simpa using h o ho)
  simp [deleteOrder, hf]

theorem delete_split (id : String) (l1 : List Order) (o : Order) (l2 : List Order)
    (hid : o.id = id) (hall : ∀ x ∈ l1, x.id ≠ id) :
    deleteOrder (l1 ++ o :: l2) id = (⟨204, .empty⟩, l1 ++ l2) := by
  simp [deleteOrder, findIndex_split id l1 o l2 hid hall, eraseIdx_split]

theorem delete_cases (id : String) (orders : List Order) :
    (deleteOrder orders id).2 = orders ∨
      ∃ l1 o l2, orders = l1 ++ o :: l2 ∧ (deleteOrder orders id).2 = l1 ++ l2 := by
  by_cases h : ∃ o ∈ orders, o.id = id
  · obtain ⟨l1, o, l2, rfl, hid, hall⟩ := split_at_first h
    exact Or.inr ⟨l1, o, l2, rfl, by rw [delete_split id l1 o l2 hid hall]⟩
  · refine Or.inl ?_
    rw [delete_absent id orders (fun o ho hid => h ⟨o, ho, hid⟩)]

/-- Every reachable store has pairwise distinct ids, enumerated statuses and
non-empty item arrays. -/
theorem reachable_inv {orders : List Order} (h : Reachable orders) :
    (orders.map (fun o => o.id)).Nodup ∧
      ∀ o ∈ orders, (∃ s ∈ validStatuses, o.status = .str s) ∧
        ∃ x xs, o.items = .arr (x :: xs) := by
  induction h with
  | init => simp
  | post remote uuid now orders body _ hfresh ih =>
    rcases postOrders_orders_cases remote uuid now orders body with h | ⟨o, h, hid, hst, hit⟩
    · rw [h]; exact ih
    · rw [h]
      refine ⟨?_, ?_⟩
      · rw [List.map_append, List.nodup_append]
        refine ⟨ih.1, by simp, ?_⟩
        intro a ha hb
        simp only [List.map_cons, List.map_nil, List.mem_singleton] at hb
        obtain ⟨x, hx, rfl⟩ := List.mem_map.mp ha
        exact hfresh x hx (hb.trans hid)
      · intro x hx
        rcases List.mem_append.mp hx with hx | hx
        · exact ih.2 x hx
        · rw [List.mem_singleton.mp hx]
          exact ⟨⟨"pending", by simp [validStatuses], hst⟩, hit⟩
  | patch now orders id body _ ih =>
    rcases patch_cases now id body orders with h | ⟨l1, o, l2, o', rfl, h, hid, hit, hst⟩
    · rw [h]; exact ih
    · rw [h]
      refine ⟨?_, ?_⟩
      · have := ih.1
        simpa [hid] using this
      · intro x hx
        rcases List.mem_append.mp hx with hx | hx
        · exact ih.2 x (List.mem_append_left _ hx)
        · rcases List.mem_cons.mp hx with rfl | hx
          · exact ⟨hst, by rw [hit]; exact (ih.2 o (by simp)).2⟩
          · exact ih.2 x (List.mem_append_right _ (List.mem_cons_of_mem _ hx))
  | delete orders id _ ih =>
    rcases delete_cases id orders with h | ⟨l1, o, l2, rfl, h⟩
    · rw [h]; exact ih
    · rw [h]
      have hsub : List.Sublist (l1 ++ l2) (l1 ++ o :: l2) :=
        List.Sublist.append_left (List.sublist_cons_self o l2) l1
      exact ⟨List.Nodup.sublist (List.Sublist.map _ hsub) ih.1,
        fun x hx => ih.2 x (hsub.subset hx)⟩

theorem find?_id_of_nodup {l : List Order} (hn : (l.map (fun o => o.id)).Nodup) {x : Order}
    (hx : x ∈ l) : l.find? (fun o => o.id == x.id) = some x := by
  induction l with
  | nil => simp at hx
  | cons a t ih =>
    simp only [List.map_cons, List.nodup_cons, List.mem_map, not_exists, not_and] at hn
    rcases List.mem_cons.mp hx with rfl | hx'
    · simp [List.find?]
    · have hne : (a.id == x.id) = false := by
        simpa using fun h : a.id = x.id => hn.1 x hx' h.symm
      simp [List.find?_cons, hne, ih hn.2 hx']

/-- C9: every store reachable from the empty store by creations (each with a
generated id not yet in the store), status updates and deletions, accepted or
rejected, has no two orders with the same id, only enumerated statuses, and only
non-empty item arrays. -/
theorem reachable_store_invariant (orders : List Order) (h : Reachable orders) :
    List.Pairwise (fun a b => a.id ≠ b.id) orders ∧
      ∀ o ∈ orders, (∃ s ∈ validStatuses, o.status = .str s) ∧
        ∃ x xs, o.items = .arr (x :: xs) :=
  ⟨List.pairwise_map.mp (reachable_inv h).1, (reachable_inv h).2⟩

/-- Witness of C9: the store after one accepted creation and a status update. -/
theorem reachable_store_invariant_witness :
    Reachable (patchOrderStatus "t1"
        (postOrders remoteOk "a" "t0" [] bodyLaptop).orders "a" [("status", .str "shipped")]).2 ∧
      (List.Pairwise (fun a b => a.id ≠ b.id) (patchOrderStatus "t1"
          (postOrders remoteOk "a" "t0" [] bodyLaptop).orders "a"
          [("status", .str "shipped")]).2 ∧
        ∀ o ∈ (patchOrderStatus "t1" (postOrders remoteOk "a" "t0" [] bodyLaptop).orders "a"
            [("status", .str "shipped")]).2,
          (∃ s ∈ validStatuses, o.status = .str s) ∧ ∃ x xs, o.items = .arr (x :: xs)) :=
  ⟨Reachable.patch _ _ _ _ (Reachable.post _ _ _ _ _ Reachable.init (by simp)),
    reachable_store_invariant _
      (Reachable.patch _ _ _ _ (Reachable.post _ _ _ _ _ Reachable.init (by simp)))⟩

/-- C6: in a reachable store, deleting an id that no stored order has answers 404
and leaves the store unchanged; deleting an id that is stored answers 204, after
which a lookup of that id answers 404, every order with another id is still
returned by a lookup of its id, and the store is the old one with the deleted
record taken out, the others keeping their order. -/
theorem delete_then_getById (orders : List Order) (id : String) (hr : Reachable orders) :
    ((∀ o ∈ orders, o.id ≠ id) →
        deleteOrder orders id = (⟨404, .error "Pedido no encontrado"⟩, orders)) ∧
      ((∃ o ∈ orders, o.id = id) →
        (deleteOrder orders id).1 = ⟨204, .empty⟩ ∧
        getOrderById (deleteOrder orders id).2 id = ⟨404, .error "Pedido no encontrado"⟩ ∧
        (∀ x ∈ orders, x.id ≠ id →
          getOrderById (deleteOrder orders id).2 x.id = ⟨200, .order x⟩) ∧
        ∃ l1 o l2, orders = l1 ++ o :: l2 ∧ o.id = id ∧
          (deleteOrder orders id).2 = l1 ++ l2) := by
  refine ⟨delete_absent id orders, fun hmem => ?_⟩
  have hn := (reachable_inv hr).1
  obtain ⟨l1, o, l2, rfl, hid, hall⟩ := split_at_first hmem
  rw [delete_split id l1 o l2 hid hall]
  have hsub : List.Sublist (l1 ++ l2) (l1 ++ o :: l2) :=
    List.Sublist.append_left (List.sublist_cons_self o l2) l1
  have hn' : ((l1 ++ l2).map (fun o => o.id)).Nodup := List.Nodup.sublist (hsub.map _) hn
  have hl2 : ∀ x ∈ l2, x.id ≠ id := by
    intro x hx hxid
    rw [List.map_append, List.map_cons, List.nodup_append] at hn
    have := (List.nodup_cons.mp hn.2.1).1
    exact this (List.mem_map.mpr ⟨x, hx, by rw [hxid, hid]⟩)
  refine ⟨rfl, ?_, ?_, l1, o, l2, rfl, hid, rfl⟩
  · have hnone : (l1 ++ l2).find? (fun o => o.id == id) = none := by
      rw [List.find?_eq_none]
      intro x hx
      rcases List.mem_append.mp hx with hx | hx
      · simpa using hall x hx
      · simpa using hl2 x hx
    simp [getOrderById, hnone]
  · intro x hx hxid
    have hx' : x ∈ l1 ++ l2 := by
      rcases List.mem_append.mp hx with hx | hx
      · exact List.mem_append_left _ hx
      · rcases List.mem_cons.mp hx with rfl | hx
        · exact absurd hid hxid
        · exact List.mem_append_right _ hx
    simp [getOrderById, find?_id_of_nodup hn' hx']

/-- Witness of C6: in the store holding one created order with id `a`, deletion
of the id `zz`, which is not stored, and deletion of `a`. -/
theorem delete_then_getById_witness :
    Reachable (postOrders remoteOk "a" "t0" [] bodyLaptop).orders ∧
      ((∀ o ∈ (postOrders remoteOk "a" "t0" [] bodyLaptop).orders, o.id ≠ "zz") ∧
        deleteOrder (postOrders remoteOk "a" "t0" [] bodyLaptop).orders "zz" =
          (⟨404, .error "Pedido no encontrado"⟩,
            (postOrders remoteOk "a" "t0" [] bodyLaptop).orders)) ∧
      ((∃ o ∈ (postOrders remoteOk "a" "t0" [] bodyLaptop).orders, o.id = "a") ∧
        (deleteOrder (postOrders remoteOk "a" "t0" [] bodyLaptop).orders "a").1 =
          ⟨204, .empty⟩ ∧
        getOrderById (deleteOrder (postOrders remoteOk "a" "t0" [] bodyLaptop).orders "a").2
          "a" = ⟨404, .error "Pedido no encontrado"⟩ ∧
        (∀ x ∈ (postOrders remoteOk "a" "t0" [] bodyLaptop).orders, x.id ≠ "a" →
          getOrderById (deleteOrder (postOrders remoteOk "a" "t0" [] bodyLaptop).orders "a").2
            x.id = ⟨200, .order x⟩) ∧
        ∃ l1 o l2, (postOrders remoteOk "a" "t0" [] bodyLaptop).orders = l1 ++ o :: l2 ∧
          o.id = "a" ∧
          (deleteOrder (postOrders remoteOk "a" "t0" [] bodyLaptop).orders "a").2 =
            l1 ++ l2) :=
  have hr : Reachable (postOrders remoteOk "a" "t0" [] bodyLaptop).orders :=
    Reachable.post _ _ _ _ _ Reachable.init (by simp)
  have hzz : ∀ o ∈ (postOrders remoteOk "a" "t0" [] bodyLaptop).orders, o.id ≠ "zz" := by
    simp [postOrders, bodyLaptop, getProp, List.lookup, verifyUser, remoteOk]
  have ha : ∃ o ∈ (postOrders remoteOk "a" "t0" [] bodyLaptop).orders, o.id = "a" := by
    simp [postOrders, bodyLaptop, getProp, List.lookup, verifyUser, remoteOk]
  ⟨hr, ⟨hzz, (delete_then_getById _ "zz" hr).1 hzz⟩, ha, (delete_then_getById _ "a" hr).2 ha⟩

end Orders
